import Mathlib

/-!
Verification of the recursive value-transformation engine of
generate-secure-pillar (package sls, src/sls.go, with the external PGP
primitives of src/pki/pki.go abstracted as oracles).

The YAML document tree is modelled by `Node`; Go `interface{}` values
reaching the walker are strings, nil, slices and maps, so `Node` has the
four corresponding constructors.  Go maps are modelled as association
lists with string keys (iteration is in list order; Go iterates maps in
unspecified order, so theorems about map iteration use inputs on which
every order agrees).  A Go panic is modelled by `Option.none` on the
functions that can panic.  External collaborators (the openpgp
primitives, the YAML codec, the filesystem) are passed in as function
parameters, per the specification they are interfaces only.
-/

namespace Sls

/-- Node is the in-memory tree: a scalar string, a nil value, a sequence
or a mapping (association list, string keys). -/
inductive Node where
  | str : String → Node
  | null : Node
  | seq : List Node → Node
  | map : List (String × Node) → Node

/-- Modelled from the source import of the Go standard library:
strings.Contains, substring containment anywhere in the string. -/
def goContains (s sub : String) : Bool :=
  decide (sub.data <:+: s.data)

/-- Modelled from the source import of the Go standard library:
strings.HasPrefix, a match at the start of the string only. -/
def goStartsWith (s pat : String) : Bool :=
  decide (pat.data <+: s.data)

/-- Modelled from the source import of the Go standard library: the lines
a bufio.Scanner yields, splitting on newlines. -/
def splitLines (s : String) : List String :=
  (s.data.splitOn '\n').map (fun l => String.mk l)

/-- Modelled from the source import of the Go standard library:
strings.Split(path, ":") as used by GetValueFromPath/SetValueFromPath. -/
def splitColon (s : String) : List String :=
  (s.data.splitOn ':').map (fun l => String.mk l)

/-- pgpHeader constant from src/sls.go line 145. -/
def pgpHeader : String := "-----BEGIN PGP MESSAGE-----"

/-- Action constant from src/sls.go line 146. -/
def encrypt : String := "encrypt"

/-- Action constant from src/sls.go line 147. -/
def decrypt : String := "decrypt"

/-- Action constant from src/sls.go line 148. -/
def validate : String := "validate"

/-- isEncrypted from src/sls.go lines 580-582: substring containment of
the PGP message header, not a prefix match. -/
def isEncrypted (str : String) : Bool :=
  goContains str pgpHeader

/-- validAction from src/sls.go lines 643-645. -/
def validAction (action : String) : Bool :=
  action == encrypt || action == decrypt || action == validate

/-- Pki abstracts the external cryptographic collaborator of
src/pki/pki.go: EncryptSecret (total, logger.Fatal on internal failure so
no error value escapes), the decrypt primitive chain of DecryptSecret
(keyring open, armor decode, ReadMessage, ReadAll collapsed into one
fallible oracle), and the key identification used by keyInfo. -/
structure Pki where
  encryptSecret : String → String
  decryptPrim : String → Except String String
  keyIdent : String → String

/-- DecryptSecret from src/pki/pki.go lines 137-166: every failure path
returns the original cipherText together with the error; success returns
the decrypted plaintext and no error. -/
def Pki.DecryptSecret (p : Pki) (cipherText : String) : String × Option String :=
  match p.decryptPrim cipherText with
  | Except.ok plain => (plain, none)
  | Except.error e => (cipherText, some e)

/-- decryptVal from src/sls.go lines 627-641: on an encrypted scalar it
takes the first component of DecryptSecret and only logs the error; a
plain scalar is returned as is.  The return type carries no error. -/
def decryptVal (p : Pki) (strVal : String) : String :=
  if isEncrypted strVal then (p.DecryptSecret strVal).1 else strVal

/-- keyInfo from src/sls.go lines 598-625: empty string for a scalar
without the PGP header, otherwise the identity of the key used
(KeyUsedForEncryptedFile, fatal on error, abstracted as a total oracle). -/
def keyInfo (p : Pki) (val : String) : String :=
  if isEncrypted val then p.keyIdent val else ""

mutual

/-- doSlice from src/sls.go lines 511-545.  A nil element panics in Go
(reflect.TypeOf(item).Kind() on a nil interface), modelled as none.  In
the string case the Go code declares `var thing interface{}` and under
encrypt assigns it only when the value is not already encrypted, so an
already-encrypted element is appended as nil. -/
def doSlice (p : Pki) (action : String) : List Node → Option (List Node)
  | [] => some []
  | item :: rest =>
    match item with
    | Node.null => none
    | Node.seq xs => do
      let t ← doSlice p action xs
      let r ← doSlice p action rest
      pure (Node.seq t :: r)
    | Node.map m => do
      let t ← doMap p action m
      let r ← doSlice p action rest
      pure (Node.map t :: r)
    | Node.str sv =>
      let thing : Node :=
        if action == decrypt then Node.str (decryptVal p sv)
        else if action == encrypt then
          (if !isEncrypted sv then Node.str (p.encryptSecret sv) else Node.null)
        else if action == validate then Node.str (keyInfo p sv)
        else Node.null
      do
        let r ← doSlice p action rest
        pure (thing :: r)

/-- doMap from src/sls.go lines 547-578.  A nil value makes the Go code
`return ret` with the entries accumulated so far, dropping that key and
every remaining key; in the string case the value is left in place when
no action branch fires. -/
def doMap (p : Pki) (action : String) : List (String × Node) → Option (List (String × Node))
  | [] => some []
  | (key, v) :: rest =>
    match v with
    | Node.null => some []
    | Node.seq xs => do
      let t ← doSlice p action xs
      let r ← doMap p action rest
      pure ((key, Node.seq t) :: r)
    | Node.map m => do
      let t ← doMap p action m
      let r ← doMap p action rest
      pure ((key, Node.map t) :: r)
    | Node.str sv =>
      let v2 : Node :=
        if action == decrypt then Node.str (decryptVal p sv)
        else if action == encrypt then
          (if !isEncrypted sv then Node.str (p.encryptSecret sv) else Node.str sv)
        else if action == validate then Node.str (keyInfo p sv)
        else Node.str sv
      do
        let r ← doMap p action rest
        pure ((key, v2) :: r)

end

/-- ProcessValues from src/sls.go lines 480-509: nil returns nil, a slice
goes to doSlice, a map to doMap, and a string is transformed in place
(under encrypt an already-encrypted string is returned unchanged). -/
def ProcessValues (p : Pki) (action : String) : Node → Option Node
  | Node.null => some Node.null
  | Node.seq xs => (doSlice p action xs).map Node.seq
  | Node.map m => (doMap p action m).map Node.map
  | Node.str sv =>
    some (Node.str (
      if action == decrypt then decryptVal p sv
      else if action == encrypt then
        (if !isEncrypted sv then p.encryptSecret sv else sv)
      else if action == validate then keyInfo p sv
      else sv))

/-- Modelled from the spec: the external path-addressing collaborator of
the yaml dependency, get(Node, path segments) -> Node or nil (spec
section 6); a missing segment or a non-mapping step yields nil. -/
def yamlGet : Node → List String → Node
  | n, [] => n
  | Node.map m, k :: rest =>
    match m.lookup k with
    | some v => yamlGet v rest
    | none => Node.null
  | _, _ :: _ => Node.null

/-- GetValueFromPath from src/sls.go lines 424-434: the path string is
split on colons and the segments given to the yaml Get collaborator. -/
def GetValueFromPath (values : List (String × Node)) (path : String) : Node :=
  yamlGet (Node.map values) (splitColon path)

/-- PerformAction from src/sls.go lines 453-477, the part that replaces
s.Yaml.Values: for a valid action it iterates over the top-level keys,
re-fetches each value through GetValueFromPath, processes the value when
no top-level element is configured or the key equals it, and passes the
fetched value through otherwise.  none models a Go panic inside the
walk. -/
def PerformActionValues (p : Pki) (top action : String) (values : List (String × Node)) :
    Option (List (String × Node)) :=
  if validAction action then
    values.mapM (fun kv =>
      let vals := GetValueFromPath values kv.1
      if top != "" then
        (if top == kv.1 then (ProcessValues p action vals).map (fun w => (kv.1, w))
         else some (kv.1, vals))
      else (ProcessValues p action vals).map (fun w => (kv.1, w)))
  else some values

/-- FormatBuffer from src/sls.go lines 319-337: the values are serialized
by the external yaml collaborator and the two-line gpg renderer marker is
prepended for every action other than validate. -/
def FormatBuffer (serialize : List (String × Node) → String) (action : String)
    (values : List (String × Node)) : String :=
  (if action != validate then "#!yaml|gpg\n\n" else "") ++ serialize values

/-- PerformAction from src/sls.go lines 453-477 as a whole: the replaced
values together with the buffer FormatBuffer returns for them. -/
def PerformAction (p : Pki) (serialize : List (String × Node) → String)
    (top action : String) (values : List (String × Node)) :
    Option (List (String × Node) × String) :=
  (PerformActionValues p top action values).map
    (fun vs => (vs, FormatBuffer serialize action vs))

/-- ScanForIncludes from src/sls.go lines 191-203: an error as soon as
any line contains the substring include:. -/
def ScanForIncludes (buf : String) : Option String :=
  if (splitLines buf).any (fun line => goContains line "include:") then
    some "contains include directives"
  else none

/-- ReadBytes from src/sls.go lines 177-188: the Yaml object is replaced
by a fresh empty one, the buffer is scanned for include directives, and
only when the scan is clean is the external parser run.  Returns the
resulting top-level values and the error. -/
def ReadBytes (parse : String → List (String × Node)) (buf : String) :
    List (String × Node) × Option String :=
  match ScanForIncludes buf with
  | some e => ([], some e)
  | none => (parse buf, none)

/-- FileAction from src/sls.go lines 297-316, on the content of an
existing regular file: read (ReadBytes), then PerformAction.  Returns
(top-level values held by s.Yaml afterwards, returned buffer, error);
the buffer stays empty when reading failed.  none models a panic. -/
def FileAction (p : Pki) (serialize : List (String × Node) → String)
    (parse : String → List (String × Node)) (top action : String)
    (content : String) : Option (List (String × Node) × String × Option String) :=
  match ReadBytes parse content with
  | (vals, some e) => some (vals, "", some e)
  | (vals, none) =>
    (PerformAction p serialize top action vals).map (fun r => (r.1, r.2, none))

/-- RotateFile from src/sls.go lines 584-596 for one file, returning the
bytes WriteSlsFile puts on disk: PlainTextYamlBuffer (FileAction with
decrypt) whose error is only logged, then PerformAction(encrypt) on
whatever state the Sls object holds, then an unconditional write.  The
Sls object is fresh for each file (see processFiles in src/main.go).
none models a panic, in which case nothing is written. -/
def RotateFile (p : Pki) (serialize : List (String × Node) → String)
    (parse : String → List (String × Node)) (top : String)
    (content : String) : Option String :=
  match FileAction p serialize parse top decrypt content with
  | none => none
  | some (vals1, _, _) =>
    (PerformAction p serialize top encrypt vals1).map (fun r => r.2)

/-- ProcessDir from src/sls.go lines 385-422, per file: for encrypt and
decrypt the buffer FileAction returns is written back to the file before
the error is examined (the error is then only warned about); validate
prints and leaves the file alone; an unknown action is fatal (none). -/
def processFileSweep (p : Pki) (serialize : List (String × Node) → String)
    (parse : String → List (String × Node)) (top action : String)
    (content : String) : Option String :=
  if action == encrypt || action == decrypt then
    (FileAction p serialize parse top action content).map (fun r => r.2.1)
  else if action == validate then some content
  else none

/-- ProcessDir from src/sls.go lines 385-422 over the sls files found
under the directory, as (path, content) pairs; returns the directory
contents after the sweep. -/
def ProcessDir (p : Pki) (serialize : List (String × Node) → String)
    (parse : String → List (String × Node)) (top action : String)
    (files : List (String × String)) : Option (List (String × String)) :=
  files.mapM (fun f => (processFileSweep p serialize parse top action f.2).map (fun c => (f.1, c)))

/-- Sample cryptographic collaborator whose decrypt primitive always
fails; its encrypt primitive returns armored text (contains the PGP
header), as the real EncryptSecret does. -/
def sampleCrypto : Pki where
  encryptSecret := fun s => pgpHeader ++ "\n\n" ++ s ++ "\n-----END PGP MESSAGE-----"
  decryptPrim := fun _ => Except.error "decrypt failed"
  keyIdent := fun _ => "ABCD1234: Sample Key"

/-- Sample cryptographic collaborator whose decrypt primitive always
succeeds with a fixed plaintext. -/
def okCrypto : Pki where
  encryptSecret := fun s => pgpHeader ++ "\n\n" ++ s ++ "\n-----END PGP MESSAGE-----"
  decryptPrim := fun _ => Except.ok "PLAIN"
  keyIdent := fun _ => "ABCD1234: Sample Key"

/-- Sample serializer standing in for yaml Marshal. -/
def sampleSerialize : List (String × Node) → String :=
  fun vs => String.join (vs.map (fun kv => kv.1 ++ ": ...\n"))

/-- Sample parser standing in for yaml Unmarshal. -/
def sampleParse : String → List (String × Node) :=
  fun _ => [("k", Node.str "v")]

/-- Scalar whose middle, not its start, mentions the PGP header. -/
def midHeaderStr : String := "note: -----BEGIN PGP MESSAGE----- appears here"

/-! ## Helper lemmas -/

theorem data_append_eq (a b : String) : (a ++ b).data = a.data ++ b.data := by
  cases a
  cases b
  rfl

theorem marker_append_ne (x : String) : "#!yaml|gpg\n\n" ++ x ≠ "include: base" := by
  intro h
  have h2 : ("#!yaml|gpg\n\n" ++ x).data = "include: base".data := congrArg String.data h
  rw [data_append_eq] at h2
  have h3 : "#!yaml|gpg\n\n".data = '#' :: "!yaml|gpg\n\n".data := by decide
  have h4 : "include: base".data = 'i' :: "nclude: base".data := by decide
  rw [h3, h4, List.cons_append] at h2
  have h5 : ('#' : Char) = 'i' := (List.cons.injEq _ _ _ _ ▸ h2 : _ ∧ _).1
  exact absurd h5 (by decide)

theorem lookup_eq_of_mem {l : List (String × Node)} {k : String} {v : Node}
    (hnd : (l.map Prod.fst).Nodup) (hmem : (k, v) ∈ l) : l.lookup k = some v := by
  induction l with
  | nil => cases hmem
  | cons hd tl ih =>
    obtain ⟨k', v'⟩ := hd
    rw [List.map_cons] at hnd
    rcases List.mem_cons.mp hmem with heq | htl
    · cases heq
      simp [List.lookup]
    · have hk : k ≠ k' := by
        intro hkk
        subst hkk
        exact (List.nodup_cons.mp hnd).1 (List.mem_map.mpr ⟨(k, v), htl, rfl⟩)
      have hbeq : (k == k') = false := beq_eq_false_iff_ne.mpr hk
      simp [List.lookup, hbeq]
      exact ih (List.nodup_cons.mp hnd).2 htl

theorem mapM_congr_option {α β : Type} {f g : α → Option β} :
    ∀ {l : List α}, (∀ a ∈ l, f a = g a) → l.mapM f = l.mapM g := by
  intro l
  induction l with
  | nil => intro _; rfl
  | cons a t ih =>
    intro h
    rw [List.mapM_cons, List.mapM_cons, h a (List.mem_cons_self a t),
      ih (fun x hx => h x (List.mem_cons_of_mem _ hx))]

/-! ## The claims -/

/-- Claim C1 (code_bug): rotation is claimed atomic, but when the decrypt
step of RotateFile fails (here: a file whose content carries an include
directive, so PlainTextYamlBuffer returns an error) the code merely logs
the error, runs PerformAction(encrypt) on the fresh empty document and
unconditionally overwrites the file, so the on-disk content changes from
the original to the marker plus the serialization of an empty document
for every serializer, parser, keyring and top-level element. -/
theorem claim1_rotateFile_overwrites_after_failed_decrypt (p : Pki)
    (serialize : List (String × Node) → String)
    (parse : String → List (String × Node)) (top : String) :
    RotateFile p serialize parse top "include: base" =
      some ("#!yaml|gpg\n\n" ++ serialize []) ∧
    "#!yaml|gpg\n\n" ++ serialize [] ≠ "include: base" := by
  constructor
  · rfl
  · exact marker_append_ne (serialize [])

/-- Claim C2 (code_bug): encrypt is claimed idempotent at every position,
but in doSlice the Go code declares a nil thing and assigns it only when
the element is not yet encrypted, so a sequence element that already
carries the PGP header is replaced by nil instead of being returned
unchanged; hence encrypting twice also differs from encrypting once on
sequences. -/
theorem claim2_encrypt_not_idempotent_in_sequences (p : Pki) :
    doSlice p encrypt [Node.str pgpHeader] = some [Node.null] ∧
    Node.null ≠ Node.str pgpHeader ∧
    ProcessValues p encrypt (Node.seq [Node.str pgpHeader]) = some (Node.seq [Node.null]) := by
  have h : isEncrypted pgpHeader = true := by decide
  refine ⟨?_, fun hh => Node.noConfusion hh, ?_⟩
  · simp [doSlice, encrypt, decrypt, validate, h]
  · simp [ProcessValues, doSlice, encrypt, decrypt, validate, h]

/-- Claim C3 (code_bug): shape preservation is claimed for every input,
but doMap returns early on the first nil value, so a mapping with a nil
value loses that key and every remaining key under every action and every
keyring: the output key set is empty while the input has keys a and b. -/
theorem claim3_doMap_drops_keys_on_nil_value (p : Pki) (action : String) :
    doMap p action [("a", Node.null), ("b", Node.str "x")] = some [] ∧
    ([] : List (String × Node)).map Prod.fst ≠
      [("a", Node.null), ("b", Node.str "x")].map Prod.fst := by
  refine ⟨by simp [doMap], by decide⟩

/-- Claim C4 (code_bug): the directory sweep is claimed to skip a failed
file without overwriting it, but ProcessDir calls WriteSlsFile before
examining the error, so a file whose processing fails (here: an include
directive) is overwritten with the empty error buffer, for every
serializer, parser, keyring and top-level element. -/
theorem claim4_sweep_overwrites_failed_file (p : Pki)
    (serialize : List (String × Node) → String)
    (parse : String → List (String × Node)) (top : String) :
    ProcessDir p serialize parse top encrypt [("top.sls", "include: base")] =
      some [("top.sls", "")] ∧
    ("" : String) ≠ "include: base" :=
  ⟨rfl, by decide⟩

/-- Claim C5 counterexample: the decrypt primitive fails on a scalar that
carries the PGP header, yet decryptVal returns the original text as its
only result; no error reaches the caller, contradicting the claim that
the error is returned rather than the original text substituted. -/
theorem claim5_counterexample_error_swallowed :
    sampleCrypto.decryptPrim pgpHeader = Except.error "decrypt failed" ∧
    isEncrypted pgpHeader = true ∧
    decryptVal sampleCrypto pgpHeader = pgpHeader ∧
    ProcessValues sampleCrypto decrypt (Node.str pgpHeader) = some (Node.str pgpHeader) :=
  ⟨rfl, by decide, rfl, rfl⟩

/-- Claim C5 as amended: when the decrypt primitive fails on recognizable
ciphertext, DecryptSecret returns the original text together with the
error, decryptVal logs the error and returns the original text, and no
error value is propagated to the caller (the return type carries none). -/
theorem claim5_decrypt_failure_returns_original_no_error (p : Pki) (s e : String)
    (henc : isEncrypted s = true) (hfail : p.decryptPrim s = Except.error e) :
    decryptVal p s = s ∧ p.DecryptSecret s = (s, some e) := by
  have h1 : p.DecryptSecret s = (s, some e) := by simp [Pki.DecryptSecret, hfail]
  exact ⟨by simp [decryptVal, henc, h1], h1⟩

/-- Claim C5 witness: the amended claim at a concrete failing oracle and
ciphertext. -/
theorem claim5_witness :
    decryptVal sampleCrypto pgpHeader = pgpHeader ∧
    sampleCrypto.DecryptSecret pgpHeader = (pgpHeader, some "decrypt failed") :=
  claim5_decrypt_failure_returns_original_no_error sampleCrypto pgpHeader
    "decrypt failed" (by decide) rfl

/-- Claim C6 counterexample: with a non-empty scope, a non-scope
top-level key whose name contains a colon is not passed through
unmodified: PerformAction re-fetches it through the colon-splitting
GetValueFromPath, which looks up the path a then b and replaces the value
by nil. -/
theorem claim6_counterexample_colon_key_modified :
    PerformActionValues sampleCrypto "scope" encrypt [("a:b", Node.str "v")] =
      some [("a:b", Node.null)] ∧
    Node.null ≠ Node.str "v" :=
  ⟨rfl, fun h => Node.noConfusion h⟩

/-- Claim C6 as amended: for a mapping document whose top-level keys are
free of colons and pairwise distinct, and a non-empty scope, a valid
action transforms exactly the value under the key equal to the scope
(through ProcessValues) and returns every other top-level entry
unchanged, for every keyring, so values outside the scope are never
examined. -/
theorem claim6_scope_isolation_colon_free (p : Pki) (top action : String)
    (values : List (String × Node))
    (hval : validAction action = true) (htop : top ≠ "")
    (hnd : (values.map Prod.fst).Nodup)
    (hcolon : ∀ kv ∈ values, splitColon kv.1 = [kv.1]) :
    PerformActionValues p top action values =
      values.mapM (fun kv =>
        if top == kv.1 then (ProcessValues p action kv.2).map (fun w => (kv.1, w))
        else some kv) := by
  unfold PerformActionValues
  simp only [hval, if_true]
  apply mapM_congr_option
  rintro ⟨k, v⟩ hmem
  have hcol : splitColon k = [k] := hcolon (k, v) hmem
  have hget : GetValueFromPath values k = v := by
    rw [GetValueFromPath, hcol]
    simp [yamlGet, lookup_eq_of_mem hnd hmem]
  have hbne : (top != "") = true := bne_iff_ne.mpr htop
  simp only [hget, hbne, if_true]

/-- Claim C6 witness: the amended claim at a concrete two-key document
with scope sv. -/
theorem claim6_witness :
    PerformActionValues sampleCrypto "sv" decrypt
        [("other", Node.str "o"), ("sv", Node.str "x")] =
      [("other", Node.str "o"), ("sv", Node.str "x")].mapM (fun kv =>
        if "sv" == kv.1 then
          (ProcessValues sampleCrypto decrypt kv.2).map (fun w => (kv.1, w))
        else some kv) :=
  claim6_scope_isolation_colon_free sampleCrypto "sv" decrypt
    [("other", Node.str "o"), ("sv", Node.str "x")]
    (by decide) (by decide) (by decide) (by decide)

/-- Claim C7 (confirmed): a document one of whose lines contains the
substring include: makes FileAction fail with the include error for
every action, every parser and every keyring; the returned values are
the fresh empty document (the parser never ran) and the buffer is empty
(no transformation was performed). -/
theorem claim7_include_rejected_before_parsing (p : Pki)
    (serialize : List (String × Node) → String)
    (parse : String → List (String × Node)) (top action content : String)
    (h : (splitLines content).any (fun line => goContains line "include:") = true) :
    FileAction p serialize parse top action content =
      some ([], "", some "contains include directives") := by
  simp [FileAction, ReadBytes, ScanForIncludes, h]

/-- Claim C7 witness: the include rejection at a concrete document,
parser and action. -/
theorem claim7_witness :
    FileAction sampleCrypto sampleSerialize sampleParse "" encrypt "include: base" =
      some ([], "", some "contains include directives") :=
  claim7_include_rejected_before_parsing sampleCrypto sampleSerialize sampleParse
    "" encrypt "include: base" (by decide)

/-- Claim C8 (code_bug): a nil element inside a sequence is claimed to
walk to itself, but doSlice calls reflect.TypeOf(item).Kind() on the nil
interface and panics (modelled none) under every action and keyring; the
short-circuit half of the claim does hold: a nil root, an empty sequence
and an empty mapping return themselves with no error. -/
theorem claim8_nil_sequence_element_panics (p : Pki) (action : String) :
    doSlice p action [Node.str "a", Node.null] = none ∧
    ProcessValues p action (Node.seq [Node.str "a", Node.null]) = none ∧
    ProcessValues p action Node.null = some Node.null ∧
    ProcessValues p action (Node.seq []) = some (Node.seq []) ∧
    ProcessValues p action (Node.map []) = some (Node.map []) :=
  ⟨by simp [doSlice], by simp [ProcessValues, doSlice], rfl,
    by simp [ProcessValues, doSlice], by simp [ProcessValues, doMap]⟩

/-- Claim C9 (confirmed): FormatBuffer prepends the fixed two-line
marker to the serialized content for every action except validate, and
for validate returns the serialized content without the marker. -/
theorem claim9_header_marker (serialize : List (String × Node) → String)
    (action : String) (values : List (String × Node)) :
    FormatBuffer serialize action values =
      (if action = validate then serialize values
       else "#!yaml|gpg\n\n" ++ serialize values) := by
  by_cases h : action = validate <;> simp [FormatBuffer, h]

/-- Claim C10 (confirmed): isEncrypted holds exactly when the PGP header
occurs anywhere in the scalar; a scalar that only mentions the header in
its middle is not a prefix match yet is treated as encrypted, so the
encrypt action leaves it unchanged for every keyring and the decrypt
action hands it to the decrypt primitive, whose output becomes the
result. -/
theorem claim10_isEncrypted_substring_containment :
    (∀ s : String, isEncrypted s = true ↔ pgpHeader.data <:+: s.data) ∧
    isEncrypted midHeaderStr = true ∧
    goStartsWith midHeaderStr pgpHeader = false ∧
    (∀ p : Pki, ProcessValues p encrypt (Node.str midHeaderStr) = some (Node.str midHeaderStr)) ∧
    ProcessValues okCrypto decrypt (Node.str midHeaderStr) = some (Node.str "PLAIN") := by
  refine ⟨?_, by decide, by decide, fun p => rfl, rfl⟩
  intro s
  simp [isEncrypted, goContains]

end Sls
